import Mathlib

/-!
Verification of adax-heater-skill: the Alexa event router and the Adax API client.

A shallow embedding of `internal/alexa/alexa.go` and `internal/adax/adax.go`.

* A Go pointer is an `Option` (`none` is the nil pointer); a Go slice is an
  `Option (List _)` (`none` is the nil slice).
* A Go `error` value is its message; a returned `(*T, error)` pair is a pair
  `Option T × Option String`.
* A function body either returns or panics (`Go.Run`); a function that talks
  to the outside also yields the list of calls it made on its collaborators
  (`adax.Call`), in order.
* Standard-library behaviour the code relies on and that cannot be read off
  the repository (`url.Parse` beyond its first check, `strconv.Quote`,
  `json.Unmarshal`, the oauth2 token exchange) is a field of `Lib`, and every
  theorem holds for every `Lib`.
-/

namespace Go

/-- Outcome of running a Go function body: a run-time panic, or a normal return. -/
inductive Run (α : Type) where
  | panic (msg : String) : Run α
  | ret (a : α) : Run α
  deriving DecidableEq

/-- Message of the run-time panic raised by dereferencing a nil pointer. -/
def nilDeref : String :=
  "runtime error: invalid memory address or nil pointer dereference"

/-- Length of a slice: `len` of the nil slice is 0. -/
def len {α : Type} : Option (List α) → Nat
  | none => 0
  | some xs => xs.length

/-- Expansion of a format holding a single verb (`%s`, `%v`, `%d`, `%q`): the
    already formatted argument replaces the verb. -/
def sprintfChars : List Char → String → List Char
  | [], _ => []
  | [c], _ => [c]
  | c :: d :: rest, arg =>
    if c = '%' then arg.data ++ rest else c :: sprintfChars (d :: rest) arg

/-- Call `fmt.Sprintf(format, arg)` for a format with one verb. -/
def Sprintf (format : String) (arg : String) : String :=
  ⟨sprintfChars format.data arg⟩

/-- Token characters of RFC 7230 (`httpguts.IsTokenRune`, `validHeaderFieldByte`). -/
def isToken (c : Char) : Bool :=
  c.isAlphanum ||
    [33, 35, 36, 37, 38, 39, 42, 43, 45, 46, 94, 95, 96, 124, 126].contains c.toNat

end Go

namespace json

/-- JSON documents, with object members in encoding order. -/
inductive JSON where
  | null : JSON
  | bool (b : Bool) : JSON
  | num (n : Int) : JSON
  | str (s : String) : JSON
  | arr (xs : List JSON) : JSON
  | obj (kvs : List (String × JSON)) : JSON

/-- Hexadecimal digit, lower case. -/
def hexDigit (n : Nat) : Char :=
  if n < 10 then Char.ofNat (48 + n) else Char.ofNat (87 + n)

/-- The double quote. -/
def dquote : Char := Char.ofNat 34

/-- The backslash. -/
def bslash : Char := Char.ofNat 92

/-- Escaping of one character inside a JSON string, as `encoding/json` does it
    with HTML escaping on (the default of `json.Marshal`). -/
def escapeChar (c : Char) : List Char :=
  if c = dquote then [bslash, dquote]
  else if c = bslash then [bslash, bslash]
  else if c.toNat = 10 then [bslash, 'n']
  else if c.toNat = 13 then [bslash, 'r']
  else if c.toNat = 9 then [bslash, 't']
  else if c.toNat < 32 ∨ c = '<' ∨ c = '>' ∨ c = '&' then
    [bslash, 'u', '0', '0', hexDigit (c.toNat / 16), hexDigit (c.toNat % 16)]
  else if c.toNat = 8232 then [bslash, 'u', '2', '0', '2', '8']
  else if c.toNat = 8233 then [bslash, 'u', '2', '0', '2', '9']
  else [c]

/-- A string as a quoted JSON string. -/
def encodeString (s : String) : String :=
  "\"" ++ ⟨s.data.flatMap escapeChar⟩ ++ "\""

mutual
/-- Compact text of a JSON document, as `json.Marshal` writes it. -/
def JSON.render : JSON → String
  | .null => "null"
  | .bool b => if b then "true" else "false"
  | .num n => toString n
  | .str s => encodeString s
  | .arr xs => "[" ++ JSON.renderList xs ++ "]"
  | .obj kvs => "\x7b" ++ JSON.renderFields kvs ++ "\x7d"
/-- Elements of an array, comma separated. -/
def JSON.renderList : List JSON → String
  | [] => ""
  | [x] => JSON.render x
  | x :: y :: xs => JSON.render x ++ "," ++ JSON.renderList (y :: xs)
/-- Members of an object, comma separated. -/
def JSON.renderFields : List (String × JSON) → String
  | [] => ""
  | [(k, v)] => encodeString k ++ ":" ++ JSON.render v
  | (k, v) :: y :: xs =>
    encodeString k ++ ":" ++ JSON.render v ++ "," ++ JSON.renderFields (y :: xs)
end

/-- Keys of an object, in order; any other document has none. -/
def JSON.keys : JSON → List String
  | .obj kvs => kvs.map Prod.fst
  | _ => []

/-- Value of the first member with the given key. -/
def JSON.get? : JSON → String → Option JSON
  | .obj kvs, k => (kvs.find? (fun kv => kv.1 == k)).map Prod.snd
  | _, _ => none

/-- Elements of an array; any other document has none. -/
def JSON.elems : JSON → List JSON
  | .arr xs => xs
  | _ => []

/-- The document is a JSON string. -/
def JSON.isStr : JSON → Bool
  | .str _ => true
  | _ => false

/-- The document is a JSON number. -/
def JSON.isNum : JSON → Bool
  | .num _ => true
  | _ => false

/-- The document is a JSON boolean. -/
def JSON.isBool : JSON → Bool
  | .bool _ => true
  | _ => false

end json

namespace http

open Go

/-- Type `http.Header` as a total map from canonical key to values. -/
abbrev Header := String → List String

/-- Canonical form of a header key (`textproto.CanonicalMIMEHeaderKey`): a key
    made of token characters gets an upper-case letter first and after every
    hyphen and lower-case letters elsewhere; any other key is left as it is. -/
def canonicalChars : Bool → List Char → List Char
  | _, [] => []
  | upper, c :: cs =>
    (if upper then c.toUpper else c.toLower) :: canonicalChars (c = '-') cs

/-- Function `textproto.CanonicalMIMEHeaderKey`. -/
def CanonicalMIMEHeaderKey (s : String) : String :=
  if s.data.all isToken then ⟨canonicalChars true s.data⟩ else s

/-- Method `Header.Add`: appends the value to the values of the canonical key. -/
def Header.Add (h : Header) (key value : String) : Header :=
  fun k => if k = CanonicalMIMEHeaderKey key then h k ++ [value] else h k

/-- Method `Header.Values`: the values of the canonical key. -/
def Header.Values (h : Header) (key : String) : List String :=
  h (CanonicalMIMEHeaderKey key)

/-- The part of `http.Request` this program sets: method, URL, headers, body. -/
structure Request where
  Method : String
  URL : String
  Header : Header
  Body : String

/-- The part of `http.Response` this program reads: the status code and what
    reading the body to its end gives (the bytes, or a read error). -/
structure Response where
  StatusCode : Int
  Body : Except String String

/-- Type `http.Client`, as its method `Do`: an error or a response. -/
structure Client where
  Do : Request → Except String Response

end http

namespace oauth2

/-- Type `oauth2.Token`. -/
structure Token where
  AccessToken : String
  TokenType : String
  RefreshToken : String
  deriving DecidableEq

end oauth2

namespace adax

open Go json

/-- Type `Config`. -/
structure Config where
  ClientID : String
  ClientSecret : String
  BaseURL : String
  deriving DecidableEq

/-- Type `Client`: both fields are pointers. -/
structure Client where
  HTTP : Option http.Client
  Config : Option Config

/-- Type `Home`. -/
structure Home where
  ID : Int
  Name : String
  deriving DecidableEq

/-- Type `Room`. -/
structure Room where
  ID : Int
  HomeID : Int
  Name : String
  HeatingEnabled : Bool
  Temperature : Int
  deriving DecidableEq

/-- Type `Update`, with tags `id`, `heatingEnabled`, `targetTemperature`. -/
structure Update where
  ID : Int
  HeatingEnabled : Bool
  TargetTemperature : String
  deriving DecidableEq

/-- Type `Updates`: three slices, each tagged `omitempty`. -/
structure Updates where
  Homes : Option (List Update)
  Rooms : Option (List Update)
  Devices : Option (List Update)
  deriving DecidableEq

/-- Type `Device`. -/
structure Device where
  ID : Int
  HomeID : Int
  RoomID : Int
  Name : String
  Type_ : String
  deriving DecidableEq

/-- Type `Response`: what the Adax API answers. -/
structure Response where
  Homes : Option (List Home)
  Rooms : Option (List Room)
  Devices : Option (List Device)
  deriving DecidableEq

/-- Constant `tokenPath`. -/
def tokenPath : String := "%s/auth/token"
/-- Constant `contentPath`. -/
def contentPath : String := "%s/rest/v1/content"
/-- Constant `controlPath`. -/
def controlPath : String := "%s/rest/v1/control"
/-- Constant `errGetStatus`. -/
def errGetStatus : String := "Unable to get status, error: %v"
/-- Constant `errSetTemperature`. -/
def errSetTemperature : String := "Unable to set temperature, error: %v"

/-- A call made on a collaborator outside the package. -/
inductive Call where
  | httpDo (request : http.Request) : Call
  | readAll : Call
  | jsonUnmarshal (body : String) : Call
  | passwordCredentialsToken (tokenURL username password : String) : Call

/-- Standard-library and oauth2 behaviour taken as given. -/
structure Lib where
  /-- Function `strconv.Quote`, the verb `%q`. -/
  quote : String → String
  /-- What `url.Parse` answers for a URL that passes its control-character
      check: `none`, or the message of its error. -/
  urlParseRest : String → Option String
  /-- Function `json.Unmarshal` into a fresh `Response`. -/
  jsonUnmarshal : String → Except String Response
  /-- Method `(*oauth2.Config).PasswordCredentialsToken` for a token URL, an
      HTTP client, a user name and a password: the requests it sends through
      the client, and the token or the error. -/
  passwordCredentialsToken : String → Option http.Client → String → String →
    List http.Request × (Option oauth2.Token × Option String)

/-- Function `validMethod` of net/http: non-empty and made of token characters. -/
def validMethod (method : String) : Bool :=
  method.data.length > 0 && method.data.all isToken

/-- Function `stringContainsCTLByte` of net/url. -/
def stringContainsCTLByte (s : String) : Bool :=
  s.data.any (fun c => c.toNat < 32 || c.toNat = 127)

/-- Function `url.Parse`, as the message of its error if any: the fragment is
    cut off at the first `#`, and a control character before it is an error. -/
def urlParse (lib : Lib) (rawURL : String) : Option String :=
  let u : String := ⟨rawURL.data.takeWhile (fun c => c.toNat != 35)⟩
  if stringContainsCTLByte u then
    some ("parse " ++ lib.quote u ++ ": net/url: invalid control character in URL")
  else lib.urlParseRest rawURL

/-- Function `http.NewRequest`: an empty method means GET, the method must be
    valid and the URL must parse; the request starts without headers. -/
def NewRequest (lib : Lib) (method url body : String) : Except String http.Request :=
  let method := if method = "" then "GET" else method
  if !validMethod method then
    .error (Sprintf "net/http: invalid method %q" (lib.quote method))
  else
    match urlParse lib url with
    | some err => .error err
    | none => .ok { Method := method, URL := url, Header := fun _ => [], Body := body }

/-- Encoding of an `Update` by `json.Marshal`, following its tags. -/
def Update.toJSON (u : Update) : JSON :=
  .obj [("id", .num u.ID), ("heatingEnabled", .bool u.HeatingEnabled),
    ("targetTemperature", .str u.TargetTemperature)]

/-- Encoding of a slice of `Update`: `null` for the nil slice, else an array. -/
def sliceJSON : Option (List Update) → JSON
  | none => .null
  | some xs => .arr (xs.map Update.toJSON)

/-- A member tagged `omitempty`: left out when the slice has length 0. -/
def omitempty (key : String) (s : Option (List Update)) : List (String × JSON) :=
  if len s = 0 then [] else [(key, sliceJSON s)]

/-- Encoding of an `Updates` by `json.Marshal`, following its tags. -/
def Updates.toJSON (u : Updates) : JSON :=
  .obj (omitempty "homes" u.Homes ++ omitempty "rooms" u.Rooms ++
    omitempty "devices" u.Devices)

/-- Call `json.Marshal(updates)` for `updates *Updates`: a nil pointer encodes
    as `null`; no value of this type makes the encoder fail. -/
def jsonMarshal (updates : Option Updates) : Except String String :=
  match updates with
  | none => .ok JSON.null.render
  | some u => .ok u.toJSON.render

/-- The two headers of `AdaxRequest`, added in the order the range over the
    map literal happens to take (`authFirst` tells which). -/
def addHeaders (authFirst : Bool) (token : String) (h : http.Header) : http.Header :=
  if authFirst then
    (h.Add "Authorization" (Sprintf "Bearer %s" token)).Add "Content-Type" "application/json"
  else
    (h.Add "Content-Type" "application/json").Add "Authorization" (Sprintf "Bearer %s" token)

/-- Method `(*Client).GetAccessToken`. -/
def GetAccessToken (lib : Lib) (c : Client) :
    List Call × Run (Option oauth2.Token × Option String) :=
  match c.Config with
  | none => ([], .panic nilDeref)
  | some config =>
    if config.ClientID = "" ∨ config.ClientSecret = "" then
      ([], .ret (none,
        some "ClientID and ClientSecret are required to generate an access token"))
    else
      let tokenURL := Sprintf tokenPath config.BaseURL
      let r := lib.passwordCredentialsToken tokenURL c.HTTP config.ClientID config.ClientSecret
      (Call.passwordCredentialsToken tokenURL config.ClientID config.ClientSecret ::
        r.1.map Call.httpDo, .ret r.2)

/-- Method `(*Client).AdaxRequest`; `b` is the content of the reader. -/
def AdaxRequest (lib : Lib) (authFirst : Bool) (c : Client) (token method url b : String) :
    List Call × Run (Option Response × Option String) :=
  match NewRequest lib method url b with
  | .error err => ([], .ret (none, some err))
  | .ok request =>
    let request := { request with Header := addHeaders authFirst token request.Header }
    match c.HTTP with
    | none => ([], .panic nilDeref)
    | some client =>
      match client.Do request with
      | .error err => ([.httpDo request], .ret (none, some err))
      | .ok response =>
        if response.StatusCode ≠ 200 then
          ([.httpDo request], .ret (none, some
            (Sprintf "Adax API returned an HTTP %d response" (toString response.StatusCode))))
        else
          match response.Body with
          | .error err => ([.httpDo request, .readAll], .ret (none, some err))
          | .ok body =>
            match lib.jsonUnmarshal body with
            | .error err =>
              ([.httpDo request, .readAll, .jsonUnmarshal body], .ret (none, some err))
            | .ok r => ([.httpDo request, .readAll, .jsonUnmarshal body], .ret (some r, none))

/-- Method `(*Client).GetStatus`. -/
def GetStatus (lib : Lib) (authFirst : Bool) (c : Client) (token : String) :
    List Call × Run (Option Response × Option String) :=
  match c.Config with
  | none => ([], .panic nilDeref)
  | some config =>
    let url := Sprintf contentPath config.BaseURL
    match AdaxRequest lib authFirst c token "GET" url "" with
    | (calls, .panic msg) => (calls, .panic msg)
    | (calls, .ret (_, some err)) => (calls, .ret (none, some (Sprintf errGetStatus err)))
    | (calls, .ret (response, none)) => (calls, .ret (response, none))

/-- Method `(*Client).SetTemperature`; it returns an `error` only. -/
def SetTemperature (lib : Lib) (authFirst : Bool) (c : Client) (token : String)
    (updates : Option Updates) : List Call × Run (Option String) :=
  match c.Config with
  | none => ([], .panic nilDeref)
  | some config =>
    let url := Sprintf controlPath config.BaseURL
    match jsonMarshal updates with
    | .error err => ([], .ret (some (Sprintf errSetTemperature err)))
    | .ok payload =>
      match AdaxRequest lib authFirst c token "POST" url payload with
      | (calls, .panic msg) => (calls, .panic msg)
      | (calls, .ret (_, some err)) => (calls, .ret (some (Sprintf errSetTemperature err)))
      | (calls, .ret (_, none)) => (calls, .ret none)

end adax

namespace alexa

open Go

/-- Constant `version`. -/
def version : String := "1.0"

/-- Modelled from the spec: the constants `launchRequest` and
    `launchRequestReprompt`, which `Handler` uses and which package alexa
    declares in a file that is not among the sources. The spec calls them a
    fixed spoken-greeting script and a fixed re-prompt script. -/
structure Scripts where
  launchRequest : String
  launchRequestReprompt : String

/-- Type `Context`: any context required by the functions of the package. -/
structure Context where
  Adax : Option adax.Client

/-- Type `LambdaContext`: the context inside the Alexa payload. -/
structure LambdaContext where
  deriving DecidableEq

/-- Type `Session`: the session inside the Alexa payload. -/
structure Session where
  deriving DecidableEq

/-- Type `Request`: the request inside the Alexa payload. -/
structure Request where
  Type_ : String
  RequestID : String
  deriving DecidableEq

/-- Type `EventPayload`: `Context`, `Session` and `Request` are pointers. -/
structure EventPayload where
  Version : String
  Context : Option LambdaContext
  Session : Option Session
  Request : Option Request
  deriving DecidableEq

/-- Type `OutputSpeech`. -/
structure OutputSpeech where
  Type_ : String
  Text : String
  SSML : String
  deriving DecidableEq

/-- Type `Reprompt`. -/
structure Reprompt where
  OutputSpeech : Option OutputSpeech
  deriving DecidableEq

/-- Type `Response`: the response inside the response payload. -/
structure Response where
  ShouldSessionEnd : Bool
  Reprompt : Option Reprompt
  OutputSpeech : Option OutputSpeech
  deriving DecidableEq

/-- Type `ResponsePayload`; `SessionAttributes` is a map, nil when `none`. -/
structure ResponsePayload where
  Version : String
  Response : Option Response
  SessionAttributes : Option (List (String × String))
  deriving DecidableEq

/-- The zero value `ResponsePayload{}`. -/
def ResponsePayload.zero : ResponsePayload :=
  { Version := "", Response := none, SessionAttributes := none }

/-- Method `(*Context).Handler`. The receiver `c` and the context `ctx` are
    never read; `event.Request.Type` dereferences `event` and then
    `event.Request`, and either dereference panics on nil. -/
def Handler {Ctx : Type} (k : Scripts) (_c : Option Context) (_ctx : Ctx)
    (event : Option EventPayload) : Run (Option ResponsePayload × Option String) :=
  match event with
  | none => .panic nilDeref
  | some ev =>
    match ev.Request with
    | none => .panic nilDeref
    | some request =>
      if request.Type_ = "LaunchRequest" then
        .ret (some
          { Version := version
            Response := some
              { ShouldSessionEnd := false
                OutputSpeech := some { Type_ := "SSML", Text := "", SSML := k.launchRequest }
                Reprompt := some
                  { OutputSpeech := some
                      { Type_ := "SSML", Text := "", SSML := k.launchRequestReprompt } } }
            SessionAttributes := none }, none)
      else
        .ret (some ResponsePayload.zero, none)

end alexa

/-! ## Instances used to evaluate the definitions on concrete inputs -/

namespace adax

/-- A library instance for evaluation: quoting puts the text between double
    quotes, `url.Parse` accepts whatever passes its control-character check,
    `json.Unmarshal` accepts the empty object only, and the token exchange is
    refused without a request being sent. -/
def evalLib : Lib :=
  { quote := fun s => "\"" ++ s ++ "\""
    urlParseRest := fun _ => none
    jsonUnmarshal := fun body =>
      if body = "\x7b\x7d" then .ok { Homes := none, Rooms := none, Devices := none }
      else .error "json: cannot unmarshal"
    passwordCredentialsToken := fun _ _ _ _ => ([], (none, some "oauth2: cannot fetch token")) }

/-- An HTTP client that answers every request with the given status and body. -/
def answering (status : Int) (body : String) : http.Client :=
  { Do := fun _ => .ok { StatusCode := status, Body := .ok body } }

/-- A client with the given base URL whose transport answers every request
    with the given status and body. -/
def evalClient (baseURL : String) (status : Int) (body : String) : Client :=
  { HTTP := some (answering status body)
    Config := some { ClientID := "id", ClientSecret := "secret", BaseURL := baseURL } }

/-- A batch with one room, nil homes and an empty device list. -/
def roomsOnly : Updates :=
  { Homes := none
    Rooms := some [{ ID := 10, HeatingEnabled := true, TargetTemperature := "21" }]
    Devices := some [] }

/-- The base URL of the Adax API followed by a line feed. -/
def newlineURL : String := "https://api-1.adax.no/client-api\n"

/-- The encoded updates found under a key of a document: the elements of the
    array under that key, none if the key is absent. -/
def encodedUnder (doc : json.JSON) (key : String) : List json.JSON :=
  match doc.get? key with
  | some v => v.elems
  | none => []

/-- The request carries exactly one Authorization header, "Bearer " followed by
    the token, exactly one Content-Type header, "application/json", and no
    header under any other key. -/
def hasRequiredHeaders (token : String) (req : http.Request) : Prop :=
  req.Header.Values "Authorization" = ["Bearer " ++ token] ∧
  req.Header.Values "Content-Type" = ["application/json"] ∧
  ∀ k, k ≠ "Authorization" → k ≠ "Content-Type" → req.Header k = []

/-- The GET request of `GetStatus` for the base URL `https://x` and the token `tok`. -/
def evalGet : http.Request :=
  { Method := "GET", URL := "https://x/rest/v1/content",
    Header := addHeaders true "tok" (fun _ => []), Body := "" }

/-- The requests among a list of calls, in order. -/
def requests : List Call → List http.Request
  | [] => []
  | .httpDo r :: cs => r :: requests cs
  | _ :: cs => requests cs

end adax

namespace alexa

/-- Scripts for evaluation. -/
def evalScripts : Scripts :=
  { launchRequest := "<speak>Welcome</speak>", launchRequestReprompt := "<speak>Again</speak>" }

/-- An event with the given request type and no context or session. -/
def eventOfType (t : String) : EventPayload :=
  { Version := "1.0", Context := none, Session := none,
    Request := some { Type_ := t, RequestID := "r1" } }

end alexa

/-! ## Expansion of the formats -/

namespace Go

theorem Sprintf_contentPath (b : String) :
    Sprintf adax.contentPath b = b ++ "/rest/v1/content" := by
  cases b; rfl

theorem Sprintf_controlPath (b : String) :
    Sprintf adax.controlPath b = b ++ "/rest/v1/control" := by
  cases b; rfl

theorem Sprintf_tokenPath (b : String) :
    Sprintf adax.tokenPath b = b ++ "/auth/token" := by
  cases b; rfl

theorem Sprintf_status (e : String) :
    Sprintf "Adax API returned an HTTP %d response" e =
      "Adax API returned an HTTP " ++ e ++ " response" := by
  cases e; rfl

theorem Sprintf_errGetStatus (e : String) :
    Sprintf adax.errGetStatus e = "Unable to get status, error: " ++ e := by
  cases e with
  | mk cs =>
    show String.mk ("Unable to get status, error: ".data ++ (cs ++ [])) = _
    rw [List.append_nil]; rfl

theorem Sprintf_errSetTemperature (e : String) :
    Sprintf adax.errSetTemperature e = "Unable to set temperature, error: " ++ e := by
  cases e with
  | mk cs =>
    show String.mk ("Unable to set temperature, error: ".data ++ (cs ++ [])) = _
    rw [List.append_nil]; rfl

theorem Sprintf_bearer (t : String) : Sprintf "Bearer %s" t = "Bearer " ++ t := by
  cases t with
  | mk cs =>
    show String.mk ("Bearer ".data ++ (cs ++ [])) = _
    rw [List.append_nil]; rfl

end Go

/-! ## The event router -/

namespace alexa

open Go

/-- C1: for every event whose request type is exactly "LaunchRequest", whatever
    the receiver, the context and the rest of the event, `Handler` returns a nil
    error and a payload whose response keeps the session open
    (`ShouldSessionEnd = false`), speaks the script `launchRequest` and
    re-prompts with the script `launchRequestReprompt`; both ssml strings are
    non-empty as soon as the two scripts are. -/
theorem Handler_launchRequest {Ctx : Type} (k : Scripts) (c : Option Context) (ctx : Ctx)
    (ev : EventPayload) (request : Request)
    (hreq : ev.Request = some request) (htype : request.Type_ = "LaunchRequest")
    (hk : k.launchRequest ≠ "" ∧ k.launchRequestReprompt ≠ "") :
    ∃ payload response speech reprompt respeech,
      Handler k c ctx (some ev) = .ret (some payload, none) ∧
      payload.Response = some response ∧
      response.ShouldSessionEnd = false ∧
      response.OutputSpeech = some speech ∧
      speech.SSML = k.launchRequest ∧ speech.SSML ≠ "" ∧
      response.Reprompt = some reprompt ∧
      reprompt.OutputSpeech = some respeech ∧
      respeech.SSML = k.launchRequestReprompt ∧ respeech.SSML ≠ "" := by
  have hrun : Handler k c ctx (some ev) = .ret (some
      { Version := version
        Response := some
          { ShouldSessionEnd := false
            OutputSpeech := some { Type_ := "SSML", Text := "", SSML := k.launchRequest }
            Reprompt := some
              { OutputSpeech := some
                  { Type_ := "SSML", Text := "", SSML := k.launchRequestReprompt } } }
        SessionAttributes := none }, none) := by
    simp [Handler, hreq, htype]
  exact ⟨_, _, _, _, _, hrun, rfl, rfl, rfl, rfl, hk.1, rfl, rfl, rfl, hk.2⟩

/-- Witness of C1: the launch event with the evaluation scripts. -/
theorem Handler_launchRequest_witness :
    ∃ payload response speech reprompt respeech,
      Handler evalScripts (none : Option Context) () (some (eventOfType "LaunchRequest")) =
        .ret (some payload, none) ∧
      payload.Response = some response ∧
      response.ShouldSessionEnd = false ∧
      response.OutputSpeech = some speech ∧
      speech.SSML = evalScripts.launchRequest ∧ speech.SSML ≠ "" ∧
      response.Reprompt = some reprompt ∧
      reprompt.OutputSpeech = some respeech ∧
      respeech.SSML = evalScripts.launchRequestReprompt ∧ respeech.SSML ≠ "" :=
  Handler_launchRequest evalScripts none () (eventOfType "LaunchRequest")
    { Type_ := "LaunchRequest", RequestID := "r1" } rfl rfl (by decide)

/-- C2 as stated fails: for the request type "SomeUnknownIntent" the returned
    payload has no response object at all, hence no end-of-session value. -/
theorem Handler_unknown_has_no_response :
    Handler evalScripts (none : Option Context) () (some (eventOfType "SomeUnknownIntent")) =
        .ret (some { Version := "", Response := none, SessionAttributes := none }, none) ∧
      ¬ ∃ payload response,
        Handler evalScripts (none : Option Context) () (some (eventOfType "SomeUnknownIntent")) =
          .ret (some payload, none) ∧
        payload.Response = some response ∧ response.ShouldSessionEnd = false := by
  have h : Handler evalScripts (none : Option Context) ()
      (some (eventOfType "SomeUnknownIntent")) =
      .ret (some { Version := "", Response := none, SessionAttributes := none }, none) := by
    decide
  refine ⟨h, ?_⟩
  rintro ⟨payload, response, hp, hr, -⟩
  rw [h] at hp
  injection hp with hp
  injection hp with hp _
  injection hp with hp
  subst hp
  simp at hr

/-- C2, amended: for every event whose request type differs from
    "LaunchRequest" (exact, case-sensitive comparison), `Handler` returns a nil
    error and the zero-valued payload: empty version, nil response (so no
    output speech, no re-prompt and no end-of-session field), nil session
    attributes. -/
theorem Handler_other_type {Ctx : Type} (k : Scripts) (c : Option Context) (ctx : Ctx)
    (ev : EventPayload) (request : Request)
    (hreq : ev.Request = some request) (htype : request.Type_ ≠ "LaunchRequest") :
    Handler k c ctx (some ev) =
      .ret (some { Version := "", Response := none, SessionAttributes := none }, none) := by
  simp [Handler, hreq, htype, ResponsePayload.zero]

/-- Witness of amended C2: the lower-case spelling "launchrequest" is not the
    launch request. -/
theorem Handler_other_type_witness :
    Handler evalScripts (none : Option Context) () (some (eventOfType "launchrequest")) =
      .ret (some { Version := "", Response := none, SessionAttributes := none }, none) :=
  Handler_other_type evalScripts none () (eventOfType "launchrequest")
    { Type_ := "launchrequest", RequestID := "r1" } rfl (by decide)

/-- C3, the failing input: an event without a request (the JSON document
    `"version":"1.0"` alone decodes to it) makes `Handler` panic on the nil
    pointer instead of returning a payload. -/
theorem Handler_nil_request_panics {Ctx : Type} (k : Scripts) (c : Option Context) (ctx : Ctx) :
    Handler k c ctx
        (some { Version := "1.0", Context := none, Session := none, Request := none }) =
      .panic nilDeref := by
  rfl

end alexa

/-! ## The Adax client -/

namespace adax

open Go json

/-- The request `AdaxRequest` hands to the transport once `NewRequest` succeeded. -/
theorem NewRequest_get (lib : Lib) (url b : String) (h : urlParse lib url = none) :
    NewRequest lib "GET" url b =
      .ok { Method := "GET", URL := url, Header := fun _ => [], Body := b } := by
  have hv : validMethod "GET" = true := by decide
  simp [NewRequest, hv, h]

theorem NewRequest_post (lib : Lib) (url b : String) (h : urlParse lib url = none) :
    NewRequest lib "POST" url b =
      .ok { Method := "POST", URL := url, Header := fun _ => [], Body := b } := by
  have hv : validMethod "POST" = true := by decide
  simp [NewRequest, hv, h]

theorem NewRequest_parse_error (lib : Lib) (method url b err : String)
    (hv : validMethod (if method = "" then "GET" else method) = true)
    (h : urlParse lib url = some err) :
    NewRequest lib method url b = .error err := by
  simp [NewRequest, hv, h]

/-- What `AdaxRequest` does with a status other than 200. -/
theorem AdaxRequest_status (lib : Lib) (authFirst : Bool) (c : Client) (client : http.Client)
    (token method url b : String) (r0 : http.Request) (s : Int)
    (hHTTP : c.HTTP = some client) (hnew : NewRequest lib method url b = .ok r0)
    (hdo : ∀ req, ∃ resp, client.Do req = .ok resp ∧ resp.StatusCode = s) (hs : s ≠ 200) :
    AdaxRequest lib authFirst c token method url b =
      ([.httpDo { r0 with Header := addHeaders authFirst token r0.Header }],
        .ret (none, some ("Adax API returned an HTTP " ++ toString s ++ " response"))) := by
  obtain ⟨resp, hresp, hcode⟩ := hdo { r0 with Header := addHeaders authFirst token r0.Header }
  simp [AdaxRequest, hnew, hHTTP, hresp, hcode, hs, Sprintf_status]

/-- C4: for every client whose configured identifier or secret is empty,
    whatever the base URL and the token exchange, `GetAccessToken` returns no
    token and the error "ClientID and ClientSecret are required to generate an
    access token", having made no call on any collaborator, the HTTP transport
    included. -/
theorem GetAccessToken_missing_credentials (lib : Lib) (c : Client) (config : Config)
    (hcfg : c.Config = some config)
    (hempty : config.ClientID = "" ∨ config.ClientSecret = "") :
    GetAccessToken lib c =
      ([], .ret (none,
        some "ClientID and ClientSecret are required to generate an access token")) := by
  simp [GetAccessToken, hcfg, hempty]

/-- Witness of C4: an empty secret, with a token exchange that would succeed. -/
theorem GetAccessToken_missing_credentials_witness :
    GetAccessToken
        { evalLib with passwordCredentialsToken := fun u _ _ _ =>
            ([{ Method := "POST", URL := u, Header := fun _ => [], Body := "" }],
              (some { AccessToken := "t", TokenType := "Bearer", RefreshToken := "" }, none)) }
        { HTTP := some (answering 200 "ok")
          Config := some { ClientID := "id", ClientSecret := "", BaseURL := "https://x" } } =
      ([], .ret (none,
        some "ClientID and ClientSecret are required to generate an access token")) :=
  GetAccessToken_missing_credentials _ _
    { ClientID := "id", ClientSecret := "", BaseURL := "https://x" } rfl (Or.inr rfl)

/-- C5: when the transport answers with a status `s` other than 200, whatever
    the body and whatever `json.Unmarshal` would make of it, `AdaxRequest`
    returns no data and the error "Adax API returned an HTTP s response" with
    `s` in decimal, and its only call is the request itself: the body is neither
    read nor decoded. `GetStatus` and `SetTemperature` return that error behind
    their own message, and make no other call either. -/
theorem non200_is_an_error (lib : Lib) (authFirst : Bool) (c : Client) (client : http.Client)
    (config : Config) (token : String) (updates : Option Updates) (s : Int)
    (hHTTP : c.HTTP = some client) (hcfg : c.Config = some config) (hs : s ≠ 200)
    (hdo : ∀ req, ∃ resp, client.Do req = .ok resp ∧ resp.StatusCode = s) :
    (∀ method url b r0, NewRequest lib method url b = .ok r0 →
      AdaxRequest lib authFirst c token method url b =
        ([.httpDo { r0 with Header := addHeaders authFirst token r0.Header }],
          .ret (none, some ("Adax API returned an HTTP " ++ toString s ++ " response")))) ∧
    (urlParse lib (config.BaseURL ++ "/rest/v1/content") = none →
      ∃ req, GetStatus lib authFirst c token =
        ([.httpDo req], .ret (none, some ("Unable to get status, error: " ++
          ("Adax API returned an HTTP " ++ toString s ++ " response"))))) ∧
    (urlParse lib (config.BaseURL ++ "/rest/v1/control") = none →
      ∃ req, SetTemperature lib authFirst c token updates =
        ([.httpDo req], .ret (some ("Unable to set temperature, error: " ++
          ("Adax API returned an HTTP " ++ toString s ++ " response"))))) := by
  refine ⟨?_, ?_, ?_⟩
  · intro method url b r0 hnew
    exact AdaxRequest_status lib authFirst c client token method url b r0 s hHTTP hnew hdo hs
  · intro hurl
    have hreq := AdaxRequest_status lib authFirst c client token "GET"
      (config.BaseURL ++ "/rest/v1/content") "" _ s hHTTP (NewRequest_get lib _ "" hurl) hdo hs
    simp only [GetStatus, hcfg, Sprintf_contentPath, hreq, Sprintf_errGetStatus]
    exact ⟨_, rfl⟩
  · intro hurl
    obtain ⟨payload, hpayload⟩ : ∃ payload, jsonMarshal updates = .ok payload := by
      cases updates <;> exact ⟨_, rfl⟩
    have hreq := AdaxRequest_status lib authFirst c client token "POST"
      (config.BaseURL ++ "/rest/v1/control") payload _ s hHTTP
      (NewRequest_post lib _ payload hurl) hdo hs
    simp only [SetTemperature, hcfg, Sprintf_controlPath, hpayload, hreq,
      Sprintf_errSetTemperature]
    exact ⟨_, rfl⟩

/-- Witness of C5: a 404 answer whose body the decoder would accept. -/
theorem non200_is_an_error_witness :
    (404 : Int) ≠ 200 ∧
    (∃ req, GetStatus evalLib true (evalClient "https://x" 404 "\x7b\x7d") "tok" =
      ([.httpDo req], .ret (none, some
        "Unable to get status, error: Adax API returned an HTTP 404 response"))) ∧
    (∃ req, SetTemperature evalLib true (evalClient "https://x" 404 "\x7b\x7d") "tok" none =
      ([.httpDo req], .ret (some
        "Unable to set temperature, error: Adax API returned an HTTP 404 response"))) :=
  have h := non200_is_an_error evalLib true (evalClient "https://x" 404 "\x7b\x7d")
    (answering 404 "\x7b\x7d") { ClientID := "id", ClientSecret := "secret", BaseURL := "https://x" }
    "tok" none 404 rfl rfl (by decide) (fun _ => ⟨_, rfl, rfl⟩)
  ⟨by decide, h.2.1 (by decide), h.2.2 (by decide)⟩

/-! ### The calls of the three operations -/

/-- A request built by `NewRequest` has the given URL and body, no header, and
    the given method, GET standing for the empty method. -/
theorem NewRequest_ok (lib : Lib) (method url b : String) (r0 : http.Request)
    (h : NewRequest lib method url b = .ok r0) :
    r0 = { Method := if method = "" then "GET" else method, URL := url,
           Header := fun _ => [], Body := b } := by
  cases hu : urlParse lib url with
  | some err =>
    by_cases hv : validMethod (if method = "" then "GET" else method) = true <;>
      simp [NewRequest, hv, hu] at h
  | none =>
    by_cases hv : validMethod (if method = "" then "GET" else method) = true <;>
      simp [NewRequest, hv, hu] at h
    exact h.symm

/-- The calls of `AdaxRequest`: none when no request could be built or the
    client is nil, else the one request followed by at most the reading and the
    decoding of its answer. -/
theorem AdaxRequest_calls (lib : Lib) (authFirst : Bool) (c : Client)
    (token method url b : String) :
    requests (AdaxRequest lib authFirst c token method url b).1 = [] ∨
    ∃ r0, NewRequest lib method url b = .ok r0 ∧
      requests (AdaxRequest lib authFirst c token method url b).1 =
        [{ r0 with Header := addHeaders authFirst token r0.Header }] := by
  cases hnew : NewRequest lib method url b with
  | error err => exact Or.inl (by simp [AdaxRequest, hnew, requests])
  | ok r0 =>
    cases hHTTP : c.HTTP with
    | none => exact Or.inl (by simp [AdaxRequest, hnew, hHTTP, requests])
    | some client =>
      refine Or.inr ⟨r0, rfl, ?_⟩
      simp only [AdaxRequest, hnew, hHTTP]
      split
      · rfl
      · split
        · rfl
        · split
          · rfl
          · split <;> rfl

/-- The calls of `GetStatus` are those of its `AdaxRequest`. -/
theorem GetStatus_calls (lib : Lib) (authFirst : Bool) (c : Client) (config : Config)
    (token : String) (hcfg : c.Config = some config) :
    (GetStatus lib authFirst c token).1 =
      (AdaxRequest lib authFirst c token "GET" (config.BaseURL ++ "/rest/v1/content") "").1 := by
  simp only [GetStatus, hcfg, Sprintf_contentPath]
  split <;> simp_all

/-- The calls of `SetTemperature` are those of its `AdaxRequest`. -/
theorem SetTemperature_calls (lib : Lib) (authFirst : Bool) (c : Client) (config : Config)
    (token : String) (updates : Option Updates) (payload : String)
    (hcfg : c.Config = some config) (hpayload : jsonMarshal updates = .ok payload) :
    (SetTemperature lib authFirst c token updates).1 =
      (AdaxRequest lib authFirst c token "POST"
        (config.BaseURL ++ "/rest/v1/control") payload).1 := by
  simp only [SetTemperature, hcfg, Sprintf_controlPath, hpayload]
  split <;> simp_all

/-! ### The encoding of an update batch -/

theorem keys_toJSON (u : Updates) :
    u.toJSON.keys =
      (if len u.Homes = 0 then [] else ["homes"]) ++
      (if len u.Rooms = 0 then [] else ["rooms"]) ++
      (if len u.Devices = 0 then [] else ["devices"]) := by
  by_cases h1 : len u.Homes = 0 <;> by_cases h2 : len u.Rooms = 0 <;>
    by_cases h3 : len u.Devices = 0 <;>
    simp [Updates.toJSON, JSON.keys, omitempty, h1, h2, h3]

theorem get_toJSON (u : Updates) :
    u.toJSON.get? "homes" = (if len u.Homes = 0 then none else some (sliceJSON u.Homes)) ∧
    u.toJSON.get? "rooms" = (if len u.Rooms = 0 then none else some (sliceJSON u.Rooms)) ∧
    u.toJSON.get? "devices" =
      (if len u.Devices = 0 then none else some (sliceJSON u.Devices)) := by
  by_cases h1 : len u.Homes = 0 <;> by_cases h2 : len u.Rooms = 0 <;>
    by_cases h3 : len u.Devices = 0 <;>
    simp [Updates.toJSON, JSON.get?, omitempty, h1, h2, h3]

theorem render_single_member (key : String) (v : JSON) :
    (JSON.obj [(key, v)]).render = "\x7b" ++ encodeString key ++ ":" ++ v.render ++ "\x7d" := by
  simp [JSON.render, JSON.renderFields, String.append_assoc]

theorem render_Update (x : Update) :
    x.toJSON.render =
      "\x7b\"id\":" ++ toString x.ID ++ ",\"heatingEnabled\":" ++
        (if x.HeatingEnabled then "true" else "false") ++ ",\"targetTemperature\":" ++
        encodeString x.TargetTemperature ++ "\x7d" := by
  have h1 : encodeString "id" = "\"id\"" := by decide
  have h2 : encodeString "heatingEnabled" = "\"heatingEnabled\"" := by decide
  have h3 : encodeString "targetTemperature" = "\"targetTemperature\"" := by decide
  simp only [Update.toJSON, JSON.render, JSON.renderFields, h1, h2, h3]
  simp only [String.append_assoc]
  rfl

/-- C6: in the encoding of an update batch each of the keys homes, rooms and
    devices is present exactly when the corresponding list is non-empty (a nil
    list counts as empty); a batch with rooms only encodes as an object whose
    only key is "rooms", the text being that one member between braces; and the
    body of any request `SetTemperature` sends for the batch is this encoding. -/
theorem Updates_keys_iff_nonempty (u : Updates) :
    (("homes" ∈ u.toJSON.keys ↔ len u.Homes ≠ 0) ∧
      ("rooms" ∈ u.toJSON.keys ↔ len u.Rooms ≠ 0) ∧
      ("devices" ∈ u.toJSON.keys ↔ len u.Devices ≠ 0)) ∧
    (len u.Rooms ≠ 0 → len u.Homes = 0 → len u.Devices = 0 →
      u.toJSON.keys = ["rooms"] ∧
      u.toJSON.render = "\x7b\"rooms\":" ++ (sliceJSON u.Rooms).render ++ "\x7d") ∧
    (∀ (lib : Lib) (authFirst : Bool) (c : Client) (token : String) (req : http.Request),
      req ∈ requests (SetTemperature lib authFirst c token (some u)).1 →
      req.Body = u.toJSON.render) := by
  refine ⟨?_, ?_, ?_⟩
  · rw [keys_toJSON]
    by_cases h1 : len u.Homes = 0 <;> by_cases h2 : len u.Rooms = 0 <;>
      by_cases h3 : len u.Devices = 0 <;> simp [h1, h2, h3]
  · intro hr hh hd
    have hk : encodeString "rooms" = "\"rooms\"" := by decide
    refine ⟨by simp [keys_toJSON, hr, hh, hd], ?_⟩
    have hobj : u.toJSON = .obj [("rooms", sliceJSON u.Rooms)] := by
      simp [Updates.toJSON, omitempty, hr, hh, hd]
    rw [hobj, render_single_member, hk]
    simp only [String.append_assoc]
    rfl
  · intro lib authFirst c token req hmem
    cases hcfg : c.Config with
    | none => simp [SetTemperature, hcfg, requests] at hmem
    | some config =>
      rw [SetTemperature_calls lib authFirst c config token (some u) u.toJSON.render hcfg rfl]
        at hmem
      rcases AdaxRequest_calls lib authFirst c token "POST"
        (config.BaseURL ++ "/rest/v1/control") u.toJSON.render with h | ⟨r0, hnew, h⟩
      · rw [h] at hmem; cases hmem
      · rw [h] at hmem
        rw [List.mem_singleton] at hmem
        rw [hmem, NewRequest_ok lib _ _ _ r0 hnew]

/-- Witness of C6: a batch with one room, nil homes and an empty device list. -/
theorem Updates_keys_iff_nonempty_witness :
    roomsOnly.toJSON.keys = ["rooms"] ∧
    roomsOnly.toJSON.render =
      "\x7b\"rooms\":" ++ (sliceJSON roomsOnly.Rooms).render ++ "\x7d" :=
  (Updates_keys_iff_nonempty roomsOnly).2.1 (by decide) (by decide) (by decide)

theorem encodedUnder_toJSON (u : Updates) :
    encodedUnder u.toJSON "homes" = (u.Homes.getD []).map Update.toJSON ∧
    encodedUnder u.toJSON "rooms" = (u.Rooms.getD []).map Update.toJSON ∧
    encodedUnder u.toJSON "devices" = (u.Devices.getD []).map Update.toJSON := by
  obtain ⟨g1, g2, g3⟩ := get_toJSON u
  have key : ∀ s : Option (List Update),
      (match (if len s = 0 then none else some (sliceJSON s)) with
        | some v => v.elems
        | none => []) = (s.getD []).map Update.toJSON := by
    intro s
    cases s with
    | none => simp [len]
    | some xs =>
      cases xs with
      | nil => simp [len]
      | cons x xs => simp [len, sliceJSON, JSON.elems]
  refine ⟨?_, ?_, ?_⟩
  · simp only [encodedUnder, g1]; exact key u.Homes
  · simp only [encodedUnder, g2]; exact key u.Rooms
  · simp only [encodedUnder, g3]; exact key u.Devices

/-- C7: the encoded updates under each of the keys homes, rooms and devices are
    the encodings of the updates of that list, in order, and the encoding of
    every update is an object in which "targetTemperature" is the JSON string
    holding the text of the field (quoted in the output, never a number), "id"
    is a JSON integer and "heatingEnabled" a JSON boolean; the update with id
    10, heating on and target temperature "21" is written with
    `"targetTemperature":"21"`. -/
theorem targetTemperature_is_a_string :
    (∀ u : Updates,
      encodedUnder u.toJSON "homes" = (u.Homes.getD []).map Update.toJSON ∧
      encodedUnder u.toJSON "rooms" = (u.Rooms.getD []).map Update.toJSON ∧
      encodedUnder u.toJSON "devices" = (u.Devices.getD []).map Update.toJSON) ∧
    (∀ x : Update,
      x.toJSON.keys = ["id", "heatingEnabled", "targetTemperature"] ∧
      x.toJSON.get? "targetTemperature" = some (.str x.TargetTemperature) ∧
      x.toJSON.get? "id" = some (.num x.ID) ∧
      x.toJSON.get? "heatingEnabled" = some (.bool x.HeatingEnabled) ∧
      x.toJSON.render =
        "\x7b\"id\":" ++ toString x.ID ++ ",\"heatingEnabled\":" ++
          (if x.HeatingEnabled then "true" else "false") ++ ",\"targetTemperature\":" ++
          encodeString x.TargetTemperature ++ "\x7d") ∧
    encodeString "21" = "\"21\"" ∧
    jsonMarshal (some roomsOnly) = .ok
      "\x7b\"rooms\":[\x7b\"id\":10,\"heatingEnabled\":true,\"targetTemperature\":\"21\"\x7d]\x7d" := by
  refine ⟨encodedUnder_toJSON, ?_, by decide, congrArg Except.ok (by decide)⟩
  intro x
  refine ⟨rfl, ?_, ?_, ?_, render_Update x⟩ <;> simp [Update.toJSON, JSON.get?]

/-! ### The request handed to the transport -/

theorem canonical_authorization : http.CanonicalMIMEHeaderKey "Authorization" = "Authorization" := by
  decide

theorem canonical_contentType : http.CanonicalMIMEHeaderKey "Content-Type" = "Content-Type" := by
  decide

/-- The headers of a request built by `AdaxRequest`, in either order of the
    range over the map literal. -/
theorem addHeaders_empty (authFirst : Bool) (token : String) (k : String) :
    addHeaders authFirst token (fun _ => []) k =
      if k = "Authorization" then ["Bearer " ++ token]
      else if k = "Content-Type" then ["application/json"] else [] := by
  have hne : ("Content-Type" : String) ≠ "Authorization" := by decide
  cases authFirst <;>
    by_cases h1 : k = "Authorization" <;> by_cases h2 : k = "Content-Type" <;>
    simp_all [addHeaders, http.Header.Add, canonical_authorization, canonical_contentType,
      Sprintf_bearer]

/-- With a client and a request built, `AdaxRequest` hands exactly that
    request, with the two headers added, to the transport. -/
theorem AdaxRequest_requests (lib : Lib) (authFirst : Bool) (c : Client) (client : http.Client)
    (token method url b : String) (r0 : http.Request)
    (hHTTP : c.HTTP = some client) (hnew : NewRequest lib method url b = .ok r0) :
    requests (AdaxRequest lib authFirst c token method url b).1 =
      [{ r0 with Header := addHeaders authFirst token r0.Header }] := by
  rcases AdaxRequest_calls lib authFirst c token method url b with h | ⟨r1, hnew1, h⟩
  · exfalso
    revert h
    simp only [AdaxRequest, hnew, hHTTP]
    split
    · simp [requests]
    · split
      · simp [requests]
      · split
        · simp [requests]
        · split <;> simp [requests]
  · rw [hnew] at hnew1
    injection hnew1 with hnew1
    rw [h, hnew1]

/-- When no request can be built, `AdaxRequest` returns the error of
    `NewRequest` and calls nothing. -/
theorem AdaxRequest_not_built (lib : Lib) (authFirst : Bool) (c : Client)
    (token method url b err : String) (hnew : NewRequest lib method url b = .error err) :
    AdaxRequest lib authFirst c token method url b = ([], .ret (none, some err)) := by
  simp [AdaxRequest, hnew]

theorem hasRequiredHeaders_built (lib : Lib) (authFirst : Bool) (token method url b : String)
    (r0 : http.Request) (hnew : NewRequest lib method url b = .ok r0) :
    hasRequiredHeaders token { r0 with Header := addHeaders authFirst token r0.Header } := by
  rw [NewRequest_ok lib method url b r0 hnew]
  refine ⟨?_, ?_, ?_⟩
  · simp [http.Header.Values, canonical_authorization, addHeaders_empty]
  · have hne : ("Content-Type" : String) ≠ "Authorization" := by decide
    simp [http.Header.Values, canonical_contentType, addHeaders_empty, hne]
  · intro k h1 h2
    simp [addHeaders_empty, h1, h2]

theorem hasRequiredHeaders_AdaxRequest (lib : Lib) (authFirst : Bool) (c : Client)
    (token method url b : String) (req : http.Request)
    (hmem : req ∈ requests (AdaxRequest lib authFirst c token method url b).1) :
    hasRequiredHeaders token req := by
  rcases AdaxRequest_calls lib authFirst c token method url b with h | ⟨r0, hnew, h⟩
  · rw [h] at hmem; cases hmem
  · rw [h, List.mem_singleton] at hmem
    rw [hmem]
    exact hasRequiredHeaders_built lib authFirst token method url b r0 hnew

/-- C8: every request `AdaxRequest` hands to the transport, for any token,
    method, URL and body and in either order of the range over the header map,
    carries exactly one Authorization header equal to "Bearer " followed by the
    token, exactly one Content-Type header equal to "application/json", and no
    other header; so does every request of `GetStatus` and of `SetTemperature`. -/
theorem requests_carry_headers (lib : Lib) (authFirst : Bool) (c : Client) (token : String) :
    (∀ (method url b : String) (req : http.Request),
      req ∈ requests (AdaxRequest lib authFirst c token method url b).1 →
      hasRequiredHeaders token req) ∧
    (∀ req : http.Request, req ∈ requests (GetStatus lib authFirst c token).1 →
      hasRequiredHeaders token req) ∧
    (∀ (updates : Option Updates) (req : http.Request),
      req ∈ requests (SetTemperature lib authFirst c token updates).1 →
      hasRequiredHeaders token req) := by
  refine ⟨?_, ?_, ?_⟩
  · intro method url b req hmem
    exact hasRequiredHeaders_AdaxRequest lib authFirst c token method url b req hmem
  · intro req hmem
    cases hcfg : c.Config with
    | none => simp [GetStatus, hcfg, requests] at hmem
    | some config =>
      rw [GetStatus_calls lib authFirst c config token hcfg] at hmem
      exact hasRequiredHeaders_AdaxRequest lib authFirst c token _ _ _ req hmem
  · intro updates req hmem
    cases hcfg : c.Config with
    | none => simp [SetTemperature, hcfg, requests] at hmem
    | some config =>
      obtain ⟨payload, hpayload⟩ : ∃ payload, jsonMarshal updates = .ok payload := by
        cases updates <;> exact ⟨_, rfl⟩
      rw [SetTemperature_calls lib authFirst c config token updates payload hcfg hpayload]
        at hmem
      exact hasRequiredHeaders_AdaxRequest lib authFirst c token _ _ _ req hmem

/-- Witness of C8: the request of `GetStatus` for the token `tok`. -/
theorem requests_carry_headers_witness :
    evalGet ∈ requests (GetStatus evalLib true (evalClient "https://x" 200 "\x7b\x7d") "tok").1 ∧
    hasRequiredHeaders "tok" evalGet :=
  have hmem : evalGet ∈
      requests (GetStatus evalLib true (evalClient "https://x" 200 "\x7b\x7d") "tok").1 :=
    List.Mem.head _
  ⟨hmem, (requests_carry_headers evalLib true (evalClient "https://x" 200 "\x7b\x7d") "tok").2.1
    evalGet hmem⟩

/-! ### One request per operation -/

/-- C9 as stated fails: with a line feed after the base URL, `url.Parse`
    rejects the URL and `GetStatus` issues no request at all. -/
theorem GetStatus_issues_no_request_on_bad_url :
    requests (GetStatus evalLib true (evalClient newlineURL 200 "\x7b\x7d") "tok").1 = [] ∧
    ¬ ∃ req, requests (GetStatus evalLib true (evalClient newlineURL 200 "\x7b\x7d") "tok").1 =
      [req] := by
  have h : requests (GetStatus evalLib true (evalClient newlineURL 200 "\x7b\x7d") "tok").1 =
      [] := by
    rfl
  refine ⟨h, ?_⟩
  rintro ⟨req, hreq⟩
  rw [h] at hreq
  cases hreq

/-- C9, amended: on a client with a configuration (base URL `b`) and an HTTP
    client, for every token and update batch: when `url.Parse` accepts
    `b ++ "/rest/v1/content"`, `GetStatus` issues exactly one request, a GET to
    that URL with an empty body, whatever the transport answers; when
    `url.Parse` rejects it, `GetStatus` issues no request and returns the parse
    error behind its own message. Likewise `SetTemperature` issues exactly one
    request, a POST to `b ++ "/rest/v1/control"` whose body is the JSON encoding
    of the batch, or none when that URL does not parse. No second request is
    ever issued. -/
theorem one_request_when_url_parses (lib : Lib) (authFirst : Bool) (c : Client)
    (client : http.Client) (config : Config) (token : String) (u : Updates)
    (hHTTP : c.HTTP = some client) (hcfg : c.Config = some config) :
    (urlParse lib (config.BaseURL ++ "/rest/v1/content") = none →
      ∃ req, requests (GetStatus lib authFirst c token).1 = [req] ∧
        req.Method = "GET" ∧ req.URL = config.BaseURL ++ "/rest/v1/content" ∧ req.Body = "") ∧
    (∀ err, urlParse lib (config.BaseURL ++ "/rest/v1/content") = some err →
      GetStatus lib authFirst c token =
        ([], .ret (none, some ("Unable to get status, error: " ++ err)))) ∧
    (urlParse lib (config.BaseURL ++ "/rest/v1/control") = none →
      ∃ req, requests (SetTemperature lib authFirst c token (some u)).1 = [req] ∧
        req.Method = "POST" ∧ req.URL = config.BaseURL ++ "/rest/v1/control" ∧
        req.Body = u.toJSON.render) ∧
    (∀ err, urlParse lib (config.BaseURL ++ "/rest/v1/control") = some err →
      SetTemperature lib authFirst c token (some u) =
        ([], .ret (some ("Unable to set temperature, error: " ++ err)))) := by
  refine ⟨?_, ?_, ?_, ?_⟩
  · intro hurl
    rw [GetStatus_calls lib authFirst c config token hcfg,
      AdaxRequest_requests lib authFirst c client token "GET" _ "" _ hHTTP
        (NewRequest_get lib _ "" hurl)]
    exact ⟨_, rfl, rfl, rfl, rfl⟩
  · intro err hurl
    have hnew := NewRequest_parse_error lib "GET" (config.BaseURL ++ "/rest/v1/content") ""
      err (by decide) hurl
    simp only [GetStatus, hcfg, Sprintf_contentPath,
      AdaxRequest_not_built lib authFirst c token "GET" _ "" err hnew, Sprintf_errGetStatus]
  · intro hurl
    rw [SetTemperature_calls lib authFirst c config token (some u) u.toJSON.render hcfg rfl,
      AdaxRequest_requests lib authFirst c client token "POST" _ u.toJSON.render _ hHTTP
        (NewRequest_post lib _ _ hurl)]
    exact ⟨_, rfl, rfl, rfl, rfl⟩
  · intro err hurl
    have hnew := NewRequest_parse_error lib "POST" (config.BaseURL ++ "/rest/v1/control")
      u.toJSON.render err (by decide) hurl
    simp only [SetTemperature, hcfg, Sprintf_controlPath, jsonMarshal,
      AdaxRequest_not_built lib authFirst c token "POST" _ _ err hnew,
      Sprintf_errSetTemperature]

/-- Witness of amended C9: a transport answering 500 gets one POST, not two. -/
theorem one_request_when_url_parses_witness :
    ∃ req, requests (SetTemperature evalLib false (evalClient "https://x" 500 "")
        "tok" (some roomsOnly)).1 = [req] ∧
      req.Method = "POST" ∧ req.URL = "https://x" ++ "/rest/v1/control" ∧
      req.Body = roomsOnly.toJSON.render :=
  (one_request_when_url_parses evalLib false (evalClient "https://x" 500 "")
    (answering 500 "") { ClientID := "id", ClientSecret := "secret", BaseURL := "https://x" }
    "tok" roomsOnly rfl rfl).2.2.1 (by decide)

/-! ### Errors are returned, behind the message of the operation -/

/-- With a 200 answer whose body the decoder rejects, `AdaxRequest` returns the
    error of the decoder. -/
theorem AdaxRequest_decode_error (lib : Lib) (authFirst : Bool) (c : Client)
    (client : http.Client) (token method url b body err : String) (r0 : http.Request)
    (hHTTP : c.HTTP = some client) (hnew : NewRequest lib method url b = .ok r0)
    (hdo : ∀ req, client.Do req = .ok { StatusCode := 200, Body := .ok body })
    (hdec : lib.jsonUnmarshal body = .error err) :
    (AdaxRequest lib authFirst c token method url b).2 = .ret (none, some err) := by
  simp [AdaxRequest, hnew, hHTTP, hdo, hdec]

/-- C10: `GetStatus` returns an error exactly when its `AdaxRequest` does, and
    the error is then "Unable to get status, error: " followed by the message of
    that error; a result without error is returned unchanged. `SetTemperature`
    encodes the batch, which never fails, and returns an error exactly when its
    `AdaxRequest` does, then "Unable to set temperature, error: " followed by
    the message of that error. In particular a 200 answer whose body does not
    decode makes both operations fail with the error of the decoder behind
    their message. -/
theorem errors_are_returned (lib : Lib) (authFirst : Bool) (c : Client) (config : Config)
    (token : String) (updates : Option Updates) (hcfg : c.Config = some config) :
    ((∃ v err, (GetStatus lib authFirst c token).2 = .ret (v, some err)) ↔
      ∃ v err, (AdaxRequest lib authFirst c token "GET"
        (config.BaseURL ++ "/rest/v1/content") "").2 = .ret (v, some err)) ∧
    (∀ v err, (AdaxRequest lib authFirst c token "GET"
        (config.BaseURL ++ "/rest/v1/content") "").2 = .ret (v, some err) →
      (GetStatus lib authFirst c token).2 =
        .ret (none, some ("Unable to get status, error: " ++ err))) ∧
    (∀ v, (AdaxRequest lib authFirst c token "GET"
        (config.BaseURL ++ "/rest/v1/content") "").2 = .ret (v, none) →
      (GetStatus lib authFirst c token).2 = .ret (v, none)) ∧
    (∃ payload, jsonMarshal updates = .ok payload ∧
      ((∃ err, (SetTemperature lib authFirst c token updates).2 = .ret (some err)) ↔
        ∃ v err, (AdaxRequest lib authFirst c token "POST"
          (config.BaseURL ++ "/rest/v1/control") payload).2 = .ret (v, some err)) ∧
      (∀ v err, (AdaxRequest lib authFirst c token "POST"
          (config.BaseURL ++ "/rest/v1/control") payload).2 = .ret (v, some err) →
        (SetTemperature lib authFirst c token updates).2 =
          .ret (some ("Unable to set temperature, error: " ++ err))) ∧
      (∀ v, (AdaxRequest lib authFirst c token "POST"
          (config.BaseURL ++ "/rest/v1/control") payload).2 = .ret (v, none) →
        (SetTemperature lib authFirst c token updates).2 = .ret none)) ∧
    (∀ (client : http.Client) (body err : String), c.HTTP = some client →
      (∀ req, client.Do req = .ok { StatusCode := 200, Body := .ok body }) →
      lib.jsonUnmarshal body = .error err →
      (urlParse lib (config.BaseURL ++ "/rest/v1/content") = none →
        (GetStatus lib authFirst c token).2 =
          .ret (none, some ("Unable to get status, error: " ++ err))) ∧
      (urlParse lib (config.BaseURL ++ "/rest/v1/control") = none →
        (SetTemperature lib authFirst c token updates).2 =
          .ret (some ("Unable to set temperature, error: " ++ err)))) := by
  have hget : ∀ v err, (AdaxRequest lib authFirst c token "GET"
        (config.BaseURL ++ "/rest/v1/content") "").2 = .ret (v, some err) →
      (GetStatus lib authFirst c token).2 =
        .ret (none, some ("Unable to get status, error: " ++ err)) := by
    intro v err h
    simp only [GetStatus, hcfg, Sprintf_contentPath]
    split <;> simp_all [Sprintf_errGetStatus]
  have hgetok : ∀ v, (AdaxRequest lib authFirst c token "GET"
        (config.BaseURL ++ "/rest/v1/content") "").2 = .ret (v, none) →
      (GetStatus lib authFirst c token).2 = .ret (v, none) := by
    intro v h
    simp only [GetStatus, hcfg, Sprintf_contentPath]
    split <;> simp_all
  obtain ⟨payload, hpayload⟩ : ∃ payload, jsonMarshal updates = .ok payload := by
    cases updates <;> exact ⟨_, rfl⟩
  have hset : ∀ v err, (AdaxRequest lib authFirst c token "POST"
        (config.BaseURL ++ "/rest/v1/control") payload).2 = .ret (v, some err) →
      (SetTemperature lib authFirst c token updates).2 =
        .ret (some ("Unable to set temperature, error: " ++ err)) := by
    intro v err h
    simp only [SetTemperature, hcfg, Sprintf_controlPath, hpayload]
    split <;> simp_all [Sprintf_errSetTemperature]
  have hsetok : ∀ v, (AdaxRequest lib authFirst c token "POST"
        (config.BaseURL ++ "/rest/v1/control") payload).2 = .ret (v, none) →
      (SetTemperature lib authFirst c token updates).2 = .ret none := by
    intro v h
    simp only [SetTemperature, hcfg, Sprintf_controlPath, hpayload]
    split <;> simp_all
  have hgetpanic : ∀ msg, (AdaxRequest lib authFirst c token "GET"
        (config.BaseURL ++ "/rest/v1/content") "").2 = .panic msg →
      (GetStatus lib authFirst c token).2 = .panic msg := by
    intro msg h
    simp only [GetStatus, hcfg, Sprintf_contentPath]
    split <;> simp_all
  have hsetpanic : ∀ msg, (AdaxRequest lib authFirst c token "POST"
        (config.BaseURL ++ "/rest/v1/control") payload).2 = .panic msg →
      (SetTemperature lib authFirst c token updates).2 = .panic msg := by
    intro msg h
    simp only [SetTemperature, hcfg, Sprintf_controlPath, hpayload]
    split <;> simp_all
  refine ⟨⟨?_, ?_⟩, hget, hgetok, ⟨payload, hpayload, ⟨?_, ?_⟩, hset, hsetok⟩, ?_⟩
  · rintro ⟨v, err, h⟩
    cases ha : (AdaxRequest lib authFirst c token "GET"
        (config.BaseURL ++ "/rest/v1/content") "").2 with
    | panic msg => rw [hgetpanic msg ha] at h; cases h
    | ret a =>
      obtain ⟨v1, e1⟩ := a
      cases e1 with
      | none => rw [hgetok v1 ha] at h; cases h
      | some e => exact ⟨v1, e, rfl⟩
  · rintro ⟨v, err, h⟩
    exact ⟨_, _, hget v err h⟩
  · rintro ⟨err, h⟩
    cases ha : (AdaxRequest lib authFirst c token "POST"
        (config.BaseURL ++ "/rest/v1/control") payload).2 with
    | panic msg => rw [hsetpanic msg ha] at h; cases h
    | ret a =>
      obtain ⟨v1, e1⟩ := a
      cases e1 with
      | none => rw [hsetok v1 ha] at h; cases h
      | some e => exact ⟨v1, e, rfl⟩
  · rintro ⟨v, err, h⟩
    exact ⟨_, hset v err h⟩
  · intro client body err hHTTP hdo hdec
    refine ⟨?_, ?_⟩
    · intro hurl
      exact hget none err (AdaxRequest_decode_error lib authFirst c client token "GET" _ ""
        body err _ hHTTP (NewRequest_get lib _ "" hurl) hdo hdec)
    · intro hurl
      exact hset none err (AdaxRequest_decode_error lib authFirst c client token "POST" _
        payload body err _ hHTTP (NewRequest_post lib _ payload hurl) hdo hdec)

/-- Witness of C10: a 200 answer whose body is not JSON. -/
theorem errors_are_returned_witness :
    (GetStatus evalLib true (evalClient "https://x" 200 "<html>") "tok").2 =
        .ret (none, some ("Unable to get status, error: " ++ "json: cannot unmarshal")) ∧
    (SetTemperature evalLib true (evalClient "https://x" 200 "<html>") "tok"
        (some roomsOnly)).2 =
      .ret (some ("Unable to set temperature, error: " ++ "json: cannot unmarshal")) :=
  have h := (errors_are_returned evalLib true (evalClient "https://x" 200 "<html>")
    { ClientID := "id", ClientSecret := "secret", BaseURL := "https://x" } "tok"
    (some roomsOnly) rfl).2.2.2.2 (answering 200 "<html>") "<html>" "json: cannot unmarshal"
    rfl (fun _ => rfl) rfl
  ⟨h.1 (by decide), h.2 (by decide)⟩

end adax
